import Mathlib

/-!
Shallow embedding of the `shift-io` shift-register driver core
(`src/output.rs`, `src/input.rs`, `src/inout.rs`, `src/lib.rs`).

A chain's state is its data buffer, modelled as a `List Nat` of bytes
(one byte per chained chip, each byte `< 256` in the real code; the bit
operations used only ever touch bits `0..7`).  The GPIO side effects of
`update` are modelled as an explicit trace of `Event`s, in the exact
order the Rust code performs the pin calls.  The serial data-in line of
the input/dual chains is modelled as a function `Nat → Bool` giving the
value returned by the k-th `is_high()` read of the call.

Rust's `1u8 << bit` is `1 <<< bit` (the shift amount is always `pin % 8
< 8` resp. `7 - bit ≤ 7`, so no u8 overflow occurs), and `!(1u8 << bit)`
is `255 - (1 <<< bit)`.
-/

namespace ShiftIO

/-- The GPIO effects `update` can perform: clock/latch/data-out line
transitions and reads of the data-in line (with the value read). -/
inductive Event : Type
  | clockLow
  | clockHigh
  | latchLow
  | latchHigh
  | dataLow
  | dataHigh
  | readIn (b : Bool)
deriving DecidableEq, Repr

/-- Embeds `Error` from `src/lib.rs`: the single error kind of the crate. -/
inductive Error : Type
  | PinOutOfRange
deriving DecidableEq, Repr

/-! ## Output chain (`src/output.rs`, SIPO) -/

/-- Inner loop body of `output.rs::Chain::update` for one buffer byte
`data`: for `bit in 0..=7`, clock low, drive the data line to
`(data & (1 << (7 - bit))) != 0`, clock high (MSB-first). -/
def outByteTrace (data : Nat) : List Event :=
  (List.range 8).flatMap fun bit =>
    [Event.clockLow,
     if (data &&& (1 <<< (7 - bit))) != 0 then Event.dataHigh else Event.dataLow,
     Event.clockHigh]

/-- Embeds `output.rs::Chain::update`: latch low, shift every buffer byte out
in buffer order (buffer index 0 first), latch high.  The data buffer is
only read, never written, so it is returned unchanged. -/
def Output.update (buffer : List Nat) : List Event × List Nat :=
  (Event.latchLow :: buffer.flatMap outByteTrace ++ [Event.latchHigh], buffer)

/-- Buffer index computed by `output.rs::Chain::set_output_unchecked`:
`CHAIN_LENGTH - (pin / 8) - 1`. -/
def Output.outIndex (chainLength pin : Nat) : Nat :=
  chainLength - pin / 8 - 1

/-- Embeds `output.rs::Chain::set_output_unchecked`: write bit `pin % 8` of
buffer byte `CHAIN_LENGTH - pin/8 - 1` (`|= 1 << bit` when setting,
`&= !(1 << bit)` when clearing). -/
def Output.set_output_unchecked (chainLength : Nat) (buffer : List Nat)
    (pin : Nat) (state : Bool) : List Nat :=
  let index := Output.outIndex chainLength pin
  let bit := pin % 8
  if state then
    buffer.set index (buffer.getD index 0 ||| (1 <<< bit))
  else
    buffer.set index (buffer.getD index 0 &&& (255 - (1 <<< bit)))

/-- Embeds `output.rs::Chain::set_output`: range check, then the unchecked
write.  Returned is the `Result` together with the post-state buffer. -/
def Output.set_output (chainLength : Nat) (buffer : List Nat)
    (pin : Nat) (state : Bool) : Except Error Unit × List Nat :=
  if pin ≥ chainLength * 8 then
    (Except.error Error.PinOutOfRange, buffer)
  else
    (Except.ok (), Output.set_output_unchecked chainLength buffer pin state)

/-! ## Input chain (`src/input.rs`, PISO) -/

/-- Inner loop of `input.rs::Chain::update` for one byte: starting from
`value = 0`, for `bit in 0..=7`, if the k-th read of the data-in line is
high then `value |= 1 << (7 - bit)` else `value &= !(1 << (7 - bit))`.
`k` is the global read counter at the start of this byte. -/
def Input.shiftInByte (inputs : Nat → Bool) (k : Nat) : Nat :=
  (List.range 8).foldl
    (fun value bit =>
      if inputs (k + bit) then value ||| (1 <<< (7 - bit))
      else value &&& (255 - (1 <<< (7 - bit))))
    0

/-- GPIO trace of the inner loop of `input.rs::Chain::update` for one
byte: for each bit, clock low, read the data-in line, clock high. -/
def inByteTrace (inputs : Nat → Bool) (k : Nat) : List Event :=
  (List.range 8).flatMap fun bit =>
    [Event.clockLow, Event.readIn (inputs (k + bit)), Event.clockHigh]

/-- The byte loop of `input.rs::Chain::update`: iterates over the buffer
slots in ascending order, overwriting each with the freshly shifted-in
byte; `k` is the global read counter. -/
def Input.updateBytes (inputs : Nat → Bool) (k : Nat) :
    List Nat → List Event × List Nat
  | [] => ([], [])
  | _ :: rest =>
    let r := Input.updateBytes inputs (k + 8) rest
    (inByteTrace inputs k ++ r.1, Input.shiftInByte inputs k :: r.2)

/-- Embeds `input.rs::Chain::update`: latch high, shift all bytes in, latch
low.  Returns the GPIO trace and the new buffer. -/
def Input.update (inputs : Nat → Bool) (buffer : List Nat) :
    List Event × List Nat :=
  let r := Input.updateBytes inputs 0 buffer
  (Event.latchHigh :: r.1 ++ [Event.latchLow], r.2)

/-- Embeds `input.rs::Chain::get_input_unchecked`:
`(data_buffer[pin / 8] & (1 << (pin % 8))) != 0`. -/
def Input.get_input_unchecked (buffer : List Nat) (pin : Nat) : Bool :=
  (buffer.getD (pin / 8) 0 &&& (1 <<< (pin % 8))) != 0

/-- Embeds `input.rs::Chain::get_input`: range check, then the unchecked read. -/
def Input.get_input (chainLength : Nat) (buffer : List Nat) (pin : Nat) :
    Except Error Bool :=
  if pin ≥ chainLength * 8 then
    Except.error Error.PinOutOfRange
  else
    Except.ok (Input.get_input_unchecked buffer pin)

/-! ## Dual chain (`src/inout.rs`, PISO + SIPO on shared clock/latch) -/

/-- Inner loop of `inout.rs::DualChain::update` for one chain index:
for each bit, clock low, read the data-in line (accumulated exactly as
in `input.rs`), drive the data-out line to bit `7 - bit` of `outValue`,
clock high. -/
def dualByteTrace (inputs : Nat → Bool) (k : Nat) (outValue : Nat) : List Event :=
  (List.range 8).flatMap fun bit =>
    [Event.clockLow,
     Event.readIn (inputs (k + bit)),
     if (outValue &&& (1 <<< (7 - bit))) != 0 then Event.dataHigh else Event.dataLow,
     Event.clockHigh]

/-- In-value accumulation of `inout.rs::DualChain::update`, textually
identical to the one in `input.rs::Chain::update`. -/
def DualChain.shiftInByte (inputs : Nat → Bool) (k : Nat) : Nat :=
  (List.range 8).foldl
    (fun value bit =>
      if inputs (k + bit) then value ||| (1 <<< (7 - bit))
      else value &&& (255 - (1 <<< (7 - bit))))
    0

/-- Byte loop of `inout.rs::DualChain::update`: driven by the output
buffer (both buffers have length `CHAIN_LENGTH`); every input-buffer
slot is overwritten with the freshly shifted-in byte. -/
def DualChain.updateBytes (inputs : Nat → Bool) (k : Nat) :
    List Nat → List Event × List Nat
  | [] => ([], [])
  | outValue :: rest =>
    let r := DualChain.updateBytes inputs (k + 8) rest
    (dualByteTrace inputs k outValue ++ r.1, DualChain.shiftInByte inputs k :: r.2)

/-- Embeds `inout.rs::DualChain::update`: latch high, combined shift of all
bytes, latch low, then the additional latch cycle (high, low) for the
output shift registers.  Returns the GPIO trace, the new input buffer
and the (unchanged) output buffer. -/
def DualChain.update (inputs : Nat → Bool) (inBuffer outBuffer : List Nat) :
    List Event × List Nat × List Nat :=
  let r := DualChain.updateBytes inputs 0 outBuffer
  (Event.latchHigh :: r.1 ++ [Event.latchLow, Event.latchHigh, Event.latchLow],
   r.2, outBuffer)

/-- Embeds `inout.rs::DualChain::get_input_unchecked`, textually identical to
`input.rs::Chain::get_input_unchecked`. -/
def DualChain.get_input_unchecked (buffer : List Nat) (pin : Nat) : Bool :=
  (buffer.getD (pin / 8) 0 &&& (1 <<< (pin % 8))) != 0

/-- Embeds `inout.rs::DualChain::get_input`. -/
def DualChain.get_input (chainLength : Nat) (buffer : List Nat) (pin : Nat) :
    Except Error Bool :=
  if pin ≥ chainLength * 8 then
    Except.error Error.PinOutOfRange
  else
    Except.ok (DualChain.get_input_unchecked buffer pin)

/-- Embeds `inout.rs::DualChain::set_output_unchecked`, textually identical to
`output.rs::Chain::set_output_unchecked`. -/
def DualChain.set_output_unchecked (chainLength : Nat) (buffer : List Nat)
    (pin : Nat) (state : Bool) : List Nat :=
  let index := chainLength - pin / 8 - 1
  let bit := pin % 8
  if state then
    buffer.set index (buffer.getD index 0 ||| (1 <<< bit))
  else
    buffer.set index (buffer.getD index 0 &&& (255 - (1 <<< bit)))

/-- Embeds `inout.rs::DualChain::set_output`. -/
def DualChain.set_output (chainLength : Nat) (buffer : List Nat)
    (pin : Nat) (state : Bool) : Except Error Unit × List Nat :=
  if pin ≥ chainLength * 8 then
    (Except.error Error.PinOutOfRange, buffer)
  else
    (Except.ok (), DualChain.set_output_unchecked chainLength buffer pin state)

/-! ## Observations on traces -/

/-- The value driven on the data-out line by an event, if any. -/
def dataEventValue (e : Event) : Option Bool :=
  match e with
  | Event.dataHigh => some true
  | Event.dataLow => some false
  | _ => none

/-- The values driven on the data-out line, in order, extracted from a
GPIO trace. -/
def dataLineBits (trace : List Event) : List Bool :=
  trace.filterMap dataEventValue

/-- One step of following the latch line level through a trace. -/
def latchStep (s : Bool) (e : Event) : Bool :=
  match e with
  | Event.latchHigh => true
  | Event.latchLow => false
  | _ => s

/-- The level of the latch line after a list of events, starting from
`init`. -/
def latchLineAfter (init : Bool) (trace : List Event) : Bool :=
  trace.foldl latchStep init

/-- A byte shifted out directly, MSB-first (the reference bit sequence
of spec §8.3). -/
def msbFirstBits (x : Nat) : List Bool :=
  (List.range 8).map fun bit => x.testBit (7 - bit)

/-- The `update` trace exactly as claim C2 words it: chips are walked
from the last chained chip to the first (iteration `k` handles chip
`length - 1 - k`, whose byte sits at buffer index
`length - chip - 1`), and per bit the data line is driven FIRST, then
the clock is pulsed low then high.  (Definition written from the claim,
not from the source, to compare the two.) -/
def claimedOutputUpdateTrace (buffer : List Nat) : List Event :=
  Event.latchLow ::
    ((List.range buffer.length).flatMap fun k =>
      (List.range 8).flatMap fun bit =>
        [if (buffer.getD (buffer.length - (buffer.length - 1 - k) - 1) 0
              &&& (1 <<< (7 - bit))) != 0
           then Event.dataHigh else Event.dataLow,
         Event.clockLow, Event.clockHigh])
    ++ [Event.latchHigh]

/-- Claim C2's trace with the minimal amendment the code forces: per
bit, the clock is lowered first, THEN the data line is driven, then the
clock is raised.  Chip order and bit order are as in the claim. -/
def amendedOutputUpdateTrace (buffer : List Nat) : List Event :=
  Event.latchLow ::
    ((List.range buffer.length).flatMap fun k =>
      (List.range 8).flatMap fun bit =>
        [Event.clockLow,
         if (buffer.getD (buffer.length - (buffer.length - 1 - k) - 1) 0
              &&& (1 <<< (7 - bit))) != 0
           then Event.dataHigh else Event.dataLow,
         Event.clockHigh])
    ++ [Event.latchHigh]

/-! ## Bit-level helper lemmas -/

lemma testBit_or_shift_self (x b : Nat) : (x ||| (1 <<< b)).testBit b = true := by
  simp [Nat.one_shiftLeft, Nat.testBit_or, Nat.testBit_two_pow]

lemma testBit_or_shift_of_ne (x b c : Nat) (h : c ≠ b) :
    (x ||| (1 <<< b)).testBit c = x.testBit c := by
  simp [Nat.one_shiftLeft, Nat.testBit_or, Nat.testBit_two_pow, Ne.symm h]

lemma mask255_testBit :
    ∀ b < 8, ∀ c < 8, (255 - (1 <<< b)).testBit c = decide (c ≠ b) := by
  decide

lemma testBit_and_mask_self (x b : Nat) (hb : b < 8) :
    (x &&& (255 - (1 <<< b))).testBit b = false := by
  simp [Nat.testBit_and, mask255_testBit b hb b hb]

lemma testBit_and_mask_of_ne (x b c : Nat) (hb : b < 8) (hc : c < 8) (h : c ≠ b) :
    (x &&& (255 - (1 <<< b))).testBit c = x.testBit c := by
  simp [Nat.testBit_and, mask255_testBit b hb c hc, h]

lemma bne_and_shift (x b : Nat) : ((x &&& (1 <<< b)) != 0) = x.testBit b := by
  rw [Nat.one_shiftLeft, Nat.and_two_pow]
  cases h : x.testBit b <;> simp [h, Nat.pos_iff_ne_zero.mp (Nat.two_pow_pos b)]

/-! ## C7, C9, C10, C3, C8 -/

/-- C7: for every pin below `CHAIN_LENGTH * 8`, the input chain's
`get_input` succeeds and returns exactly bit `pin % 8` of buffer byte
`pin / 8` (ascending byte order, LSB-first bit order). -/
theorem C7_get_input_mapping (chainLength pin : Nat) (buffer : List Nat)
    (hpin : pin < chainLength * 8) :
    Input.get_input chainLength buffer pin
      = Except.ok ((buffer.getD (pin / 8) 0).testBit (pin % 8)) := by
  rw [Input.get_input, if_neg (by omega), Input.get_input_unchecked, bne_and_shift]

/-- Witness for C7: on a one-chip chain with buffer `[5]`, pin 2 reads
bit 2 of byte 0, which is `true`. -/
theorem C7_witness : Input.get_input 1 [5] 2 = Except.ok true :=
  C7_get_input_mapping 1 2 [5] (by decide)

/-- C9: `DualChain`'s accessors compute exactly the same pin-to-bit
mapping as `InputChain`'s `get_input` and `OutputChain`'s `set_output`:
on equal buffer contents and pin they return/produce equal results,
both in the unchecked and in the checked variants. -/
theorem C9_dual_accessors_agree (chainLength pin : Nat) (buffer : List Nat)
    (state : Bool) :
    DualChain.get_input_unchecked buffer pin = Input.get_input_unchecked buffer pin
    ∧ DualChain.set_output_unchecked chainLength buffer pin state
        = Output.set_output_unchecked chainLength buffer pin state
    ∧ DualChain.get_input chainLength buffer pin = Input.get_input chainLength buffer pin
    ∧ DualChain.set_output chainLength buffer pin state
        = Output.set_output chainLength buffer pin state :=
  ⟨rfl, rfl, rfl, rfl⟩

/-- C10: for every pin strictly below `CHAIN_LENGTH * 8`, the buffer
indices of the unchecked accessors are in bounds: `pin / 8` for the
input read, `CHAIN_LENGTH - pin/8 - 1` for the output write; the latter
subtraction does not underflow (its value over `ℤ` agrees with the
truncated `ℕ` value the code computes). -/
theorem C10_unchecked_indices_in_bounds (chainLength pin : Nat) (buffer : List Nat)
    (hlen : buffer.length = chainLength) (hpin : pin < chainLength * 8) :
    pin / 8 < buffer.length
    ∧ Output.outIndex chainLength pin < buffer.length
    ∧ pin / 8 + 1 ≤ chainLength
    ∧ ((chainLength : Int) - ((pin / 8 : Nat) : Int) - 1
        = ((Output.outIndex chainLength pin : Nat) : Int)) := by
  unfold Output.outIndex
  refine ⟨by omega, by omega, by omega, by omega⟩

/-- Witness for C10 at `CHAIN_LENGTH = 2`, `pin = 15`. -/
theorem C10_witness :
    15 / 8 < ([0, 0] : List Nat).length
    ∧ Output.outIndex 2 15 < ([0, 0] : List Nat).length
    ∧ 15 / 8 + 1 ≤ 2
    ∧ (((2 : Nat) : Int) - ((15 / 8 : Nat) : Int) - 1
        = ((Output.outIndex 2 15 : Nat) : Int)) :=
  C10_unchecked_indices_in_bounds 2 15 [0, 0] rfl (by decide)

/-- C3: every checked accessor of all three chains returns
`PinOutOfRange` for `pin ≥ CHAIN_LENGTH * 8` and leaves the buffer
unchanged; for `pin < CHAIN_LENGTH * 8` it succeeds; and
`PinOutOfRange` is the only error value of the crate. -/
theorem C3_pin_range_errors (chainLength pin : Nat)
    (bufO bufI bufDI bufDO : List Nat) (state : Bool) :
    (chainLength * 8 ≤ pin →
        Output.set_output chainLength bufO pin state
            = (Except.error Error.PinOutOfRange, bufO)
        ∧ Input.get_input chainLength bufI pin = Except.error Error.PinOutOfRange
        ∧ DualChain.get_input chainLength bufDI pin = Except.error Error.PinOutOfRange
        ∧ DualChain.set_output chainLength bufDO pin state
            = (Except.error Error.PinOutOfRange, bufDO))
    ∧ (pin < chainLength * 8 →
        Output.set_output chainLength bufO pin state
            = (Except.ok (), Output.set_output_unchecked chainLength bufO pin state)
        ∧ Input.get_input chainLength bufI pin
            = Except.ok (Input.get_input_unchecked bufI pin)
        ∧ DualChain.get_input chainLength bufDI pin
            = Except.ok (DualChain.get_input_unchecked bufDI pin)
        ∧ DualChain.set_output chainLength bufDO pin state
            = (Except.ok (), DualChain.set_output_unchecked chainLength bufDO pin state))
    ∧ (∀ e : Error, e = Error.PinOutOfRange) := by
  refine ⟨fun h => ?_, fun h => ?_, fun e => by cases e; rfl⟩
  · rw [Output.set_output, if_pos h, Input.get_input, if_pos h,
      DualChain.get_input, if_pos h, DualChain.set_output, if_pos h]
    exact ⟨rfl, rfl, rfl, rfl⟩
  · rw [Output.set_output, if_neg (by omega), Input.get_input, if_neg (by omega),
      DualChain.get_input, if_neg (by omega), DualChain.set_output, if_neg (by omega)]
    exact ⟨rfl, rfl, rfl, rfl⟩

/-- Witness for C3: at `CHAIN_LENGTH = 2`, `pin = 16` every checked
accessor errors with `PinOutOfRange` and the buffers are untouched. -/
theorem C3_witness :
    Output.set_output 2 [1, 2] 16 true = (Except.error Error.PinOutOfRange, [1, 2])
    ∧ Input.get_input 2 [3, 4] 16 = Except.error Error.PinOutOfRange
    ∧ DualChain.get_input 2 [5, 6] 16 = Except.error Error.PinOutOfRange
    ∧ DualChain.set_output 2 [7, 8] 16 true = (Except.error Error.PinOutOfRange, [7, 8]) :=
  (C3_pin_range_errors 2 16 [1, 2] [3, 4] [5, 6] [7, 8] true).1 (by decide)

/-- C8: on a one-chip output chain, writing the pattern `0xA5` through 8
sequential checked `set_output` calls and then calling `update` drives
on the data line exactly the bit sequence of `0xA5` shifted out
MSB-first, namely `1,0,1,0,0,1,0,1`. -/
theorem C8_roundtrip_0xA5 :
    dataLineBits (Output.update
        ((List.range 8).foldl
          (fun buffer pin => (Output.set_output 1 buffer pin (Nat.testBit 0xA5 pin)).2)
          [0])).1
      = msbFirstBits 0xA5
    ∧ msbFirstBits 0xA5 = [true, false, true, false, false, true, false, true] := by
  exact ⟨by decide, by decide⟩

/-! ## Properties of `set_output_unchecked` -/

lemma set_output_unchecked_length (chainLength : Nat) (buffer : List Nat)
    (pin : Nat) (state : Bool) :
    (Output.set_output_unchecked chainLength buffer pin state).length = buffer.length := by
  unfold Output.set_output_unchecked
  cases state <;> simp [List.length_set]

lemma set_output_unchecked_testBit_self (chainLength pin : Nat) (buffer : List Nat)
    (state : Bool) (hlen : buffer.length = chainLength) (hpin : pin < chainLength * 8) :
    ((Output.set_output_unchecked chainLength buffer pin state).getD
        (Output.outIndex chainLength pin) 0).testBit (pin % 8) = state := by
  have hidx : Output.outIndex chainLength pin < buffer.length := by
    unfold Output.outIndex; omega
  unfold Output.set_output_unchecked
  cases state
  · rw [if_neg (by simp), List.getD_eq_getElem?_getD, List.getElem?_set_self hidx,
      Option.getD_some]
    exact testBit_and_mask_self _ _ (Nat.mod_lt pin (by omega))
  · rw [if_pos rfl, List.getD_eq_getElem?_getD, List.getElem?_set_self hidx,
      Option.getD_some]
    exact testBit_or_shift_self _ _

lemma set_output_unchecked_testBit_frame (chainLength pin i b : Nat)
    (buffer : List Nat) (state : Bool) (hb : b < 8)
    (hne : ¬(i = Output.outIndex chainLength pin ∧ b = pin % 8)) :
    ((Output.set_output_unchecked chainLength buffer pin state).getD i 0).testBit b
      = (buffer.getD i 0).testBit b := by
  unfold Output.set_output_unchecked
  by_cases hi : i = Output.outIndex chainLength pin
  · rw [← hi]
    have hbb : b ≠ pin % 8 := fun hcontra => hne ⟨hi, hcontra⟩
    rcases Nat.lt_or_ge i buffer.length with hlt | hge
    · cases state
      · rw [if_neg (by simp), List.getD_eq_getElem?_getD, List.getElem?_set_self hlt,
          Option.getD_some, List.getD_eq_getElem?_getD]
        exact testBit_and_mask_of_ne _ _ _ (Nat.mod_lt pin (by omega)) hb hbb
      · rw [if_pos rfl, List.getD_eq_getElem?_getD, List.getElem?_set_self hlt,
          Option.getD_some, List.getD_eq_getElem?_getD]
        exact testBit_or_shift_of_ne _ _ _ hbb
    · cases state
      · rw [if_neg (by simp), List.getD_eq_getElem?_getD,
          List.getElem?_eq_none (by simpa [List.length_set] using hge),
          List.getD_eq_getElem?_getD, List.getElem?_eq_none hge]
      · rw [if_pos rfl, List.getD_eq_getElem?_getD,
          List.getElem?_eq_none (by simpa [List.length_set] using hge),
          List.getD_eq_getElem?_getD, List.getElem?_eq_none hge]
  · cases state
    · rw [if_neg (by simp), List.getD_eq_getElem?_getD,
        List.getElem?_set_ne (fun hcontra => hi hcontra.symm), ← List.getD_eq_getElem?_getD]
    · rw [if_pos rfl, List.getD_eq_getElem?_getD,
        List.getElem?_set_ne (fun hcontra => hi hcontra.symm), ← List.getD_eq_getElem?_getD]

/-- C1: on a 2-chip output chain starting all-zero, setting pins 0 and
15 high yields exactly the buffer `[0x80, 0x01]`; and in general, for
any pin below `CHAIN_LENGTH * 8`, the checked `set_output` succeeds and
writes exactly bit `pin % 8` of buffer byte `CHAIN_LENGTH - pin/8 - 1`
to the requested state, leaving every other bit of every byte alone. -/
theorem C1_output_bit_mapping :
    (Output.set_output 2 (Output.set_output 2 [0, 0] 0 true).2 15 true).2 = [0x80, 0x01]
    ∧ ∀ chainLength pin : Nat, ∀ state : Bool, ∀ buffer : List Nat,
        buffer.length = chainLength → pin < chainLength * 8 →
        (Output.set_output chainLength buffer pin state).1 = Except.ok ()
        ∧ ((Output.set_output chainLength buffer pin state).2.getD
              (Output.outIndex chainLength pin) 0).testBit (pin % 8) = state
        ∧ (∀ i < chainLength, ∀ b < 8,
            ¬(i = Output.outIndex chainLength pin ∧ b = pin % 8) →
            ((Output.set_output chainLength buffer pin state).2.getD i 0).testBit b
              = (buffer.getD i 0).testBit b) := by
  refine ⟨by decide, ?_⟩
  intro chainLength pin state buffer hlen hpin
  have hcond : ¬ pin ≥ chainLength * 8 := by omega
  refine ⟨?_, ?_, ?_⟩
  · rw [Output.set_output, if_neg hcond]
  · rw [Output.set_output, if_neg hcond]
    exact set_output_unchecked_testBit_self chainLength pin buffer state hlen hpin
  · intro i _ b hb hne
    rw [Output.set_output, if_neg hcond]
    exact set_output_unchecked_testBit_frame chainLength pin i b buffer state hb hne

/-- Witness for C1's general part: at `CHAIN_LENGTH = 2`, `pin = 3`,
the checked write succeeds. -/
theorem C1_witness :
    (Output.set_output 2 [0, 0] 3 true).1 = Except.ok () :=
  (C1_output_bit_mapping.2 2 3 true [0, 0] rfl (by decide)).1

/-! ## C2: the shape of the output update trace -/

lemma flatMap_eq_range_getD {α β : Type} (l : List α) (d0 : α) (f : α → List β) :
    l.flatMap f = (List.range l.length).flatMap fun k => f (l.getD k d0) := by
  induction l with
  | nil => rfl
  | cons x xs ih =>
    rw [List.flatMap_cons, List.length_cons, List.range_succ_eq_map,
      List.flatMap_cons, List.flatMap_map, List.getD_cons_zero]
    simp only [Nat.succ_eq_add_one, List.getD_cons_succ]
    rw [ih]

lemma flatMap_congr_mem {α β : Type} (l : List α) (f g : α → List β)
    (h : ∀ a ∈ l, f a = g a) : l.flatMap f = l.flatMap g := by
  induction l with
  | nil => rfl
  | cons x xs ih =>
    rw [List.flatMap_cons, List.flatMap_cons, h x (List.mem_cons_self x xs),
      ih fun a ha => h a (List.mem_cons_of_mem x ha)]

/-- Counterexample to C2 as stated: already on a one-chip chain with
buffer `[0x80]`, the trace the claim describes (data line driven before
the clock pulse) differs from the trace the code produces (the code
lowers the clock first, then drives the data line). -/
theorem C2_counterexample :
    claimedOutputUpdateTrace [0x80] ≠ (Output.update [0x80]).1 := by
  decide

/-- C2 amended: `update` lowers the latch, then for each byte from the
last chained chip to the first, for each of its 8 bits MSB-first,
pulses the clock low, drives the data line to the bit value, and raises
the clock; finally it raises the latch.  No other GPIO effects occur and
the data buffer is read but not modified. -/
theorem C2_output_update_trace (buffer : List Nat) :
    (Output.update buffer).1 = amendedOutputUpdateTrace buffer
    ∧ (Output.update buffer).2 = buffer := by
  refine ⟨?_, rfl⟩
  show Event.latchLow :: buffer.flatMap outByteTrace ++ [Event.latchHigh]
      = amendedOutputUpdateTrace buffer
  unfold amendedOutputUpdateTrace
  congr 2
  rw [flatMap_eq_range_getD buffer 0 outByteTrace]
  refine flatMap_congr_mem _ _ _ fun k hk => ?_
  rw [List.mem_range] at hk
  have harith : buffer.length - (buffer.length - 1 - k) - 1 = k := by omega
  rw [harith]
  rfl

/-! ## C5: the input update -/

lemma input_updateBytes_spec (inputs : Nat → Bool) (buffer : List Nat) :
    ∀ k : Nat,
      (Input.updateBytes inputs k buffer).1
          = ((List.range buffer.length).flatMap fun i => inByteTrace inputs (k + 8 * i))
      ∧ (Input.updateBytes inputs k buffer).2
          = ((List.range buffer.length).map fun i => Input.shiftInByte inputs (k + 8 * i)) := by
  induction buffer with
  | nil => exact fun k => ⟨rfl, rfl⟩
  | cons d rest ih =>
    intro k
    obtain ⟨ih1, ih2⟩ := ih (k + 8)
    have harith : ∀ i : Nat, k + 8 + 8 * i = k + 8 * (i + 1) := fun i => by ring
    constructor
    · show inByteTrace inputs k ++ (Input.updateBytes inputs (k + 8) rest).1 = _
      rw [ih1, List.length_cons, List.range_succ_eq_map, List.flatMap_cons,
        List.flatMap_map]
      simp only [Nat.succ_eq_add_one, harith, Nat.mul_zero, Nat.add_zero]
    · show Input.shiftInByte inputs k :: (Input.updateBytes inputs (k + 8) rest).2 = _
      rw [ih2, List.length_cons, List.range_succ_eq_map, List.map_cons, List.map_map]
      simp only [Function.comp_def, Nat.succ_eq_add_one, harith, Nat.mul_zero, Nat.add_zero]

/-- C5: `InputChain::update` raises the latch, then for each byte slot
in ascending chain order and each of its 8 bits pulses the clock low,
samples the data-in line, and raises the clock, then lowers the latch;
it overwrites every byte of the buffer with the freshly sampled value,
and the resulting buffer does not depend on the buffer contents before
the call. -/
theorem C5_input_update (inputs : Nat → Bool) (buffer other : List Nat)
    (hlen : other.length = buffer.length) :
    (Input.update inputs buffer).1
        = Event.latchHigh ::
            ((List.range buffer.length).flatMap fun i => inByteTrace inputs (8 * i))
            ++ [Event.latchLow]
    ∧ (Input.update inputs buffer).2
        = ((List.range buffer.length).map fun i => Input.shiftInByte inputs (8 * i))
    ∧ (Input.update inputs buffer).2 = (Input.update inputs other).2 := by
  obtain ⟨h1, h2⟩ := input_updateBytes_spec inputs buffer 0
  obtain ⟨_, h2'⟩ := input_updateBytes_spec inputs other 0
  simp only [Nat.zero_add] at h1 h2 h2'
  refine ⟨?_, ?_, ?_⟩
  · show Event.latchHigh :: (Input.updateBytes inputs 0 buffer).1 ++ [Event.latchLow] = _
    rw [h1]
  · exact h2
  · show (Input.updateBytes inputs 0 buffer).2 = (Input.updateBytes inputs 0 other).2
    rw [h2, h2', hlen]

/-- Witness for C5: with every sampled bit high, updating from the
buffers `[0]` and `[7]` produces the same resulting buffer. -/
theorem C5_witness :
    (Input.update (fun _ => true) [0]).2 = (Input.update (fun _ => true) [7]).2 :=
  (C5_input_update (fun _ => true) [0] [7] rfl).2.2

/-! ## C4: latch behaviour of the dual-chain update -/

lemma dualByteTrace_no_latch (inputs : Nat → Bool) (k outValue : Nat) :
    ∀ e ∈ dualByteTrace inputs k outValue,
      e ≠ Event.latchLow ∧ e ≠ Event.latchHigh := by
  intro e he
  rw [dualByteTrace, List.mem_flatMap] at he
  obtain ⟨bit, _, hmem⟩ := he
  simp only [List.mem_cons, List.not_mem_nil, or_false] at hmem
  rcases hmem with h | h | h | h
  · subst h; exact ⟨by simp, by simp⟩
  · subst h; exact ⟨by simp, by simp⟩
  · subst h
    constructor <;> split <;> simp
  · subst h; exact ⟨by simp, by simp⟩

lemma dual_updateBytes_no_latch (inputs : Nat → Bool) (outBuffer : List Nat) :
    ∀ k : Nat, ∀ e ∈ (DualChain.updateBytes inputs k outBuffer).1,
      e ≠ Event.latchLow ∧ e ≠ Event.latchHigh := by
  induction outBuffer with
  | nil =>
    intro k e he
    simp [DualChain.updateBytes] at he
  | cons v rest ih =>
    intro k e he
    have he' : e ∈ dualByteTrace inputs k v ++ (DualChain.updateBytes inputs (k + 8) rest).1 := he
    rw [List.mem_append] at he'
    rcases he' with h | h
    · exact dualByteTrace_no_latch inputs k v e h
    · exact ih (k + 8) e h

lemma latchStep_of_no_latch (s : Bool) (e : Event)
    (h : e ≠ Event.latchLow ∧ e ≠ Event.latchHigh) : latchStep s e = s := by
  cases e <;> simp_all [latchStep]

lemma latchLineAfter_of_no_latch (l : List Event)
    (h : ∀ e ∈ l, e ≠ Event.latchLow ∧ e ≠ Event.latchHigh) :
    ∀ s : Bool, latchLineAfter s l = s := by
  induction l with
  | nil => intro s; rfl
  | cons x xs ih =>
    intro s
    rw [latchLineAfter, List.foldl_cons,
      latchStep_of_no_latch s x (h x (List.mem_cons_self x xs))]
    exact ih (fun e he => h e (List.mem_cons_of_mem x he)) s

/-- Counterexample to C4 as stated: at `CHAIN_LENGTH = 1`, two events
into the `DualChain::update` sequence — i.e. mid-shifting, right after
the first clock transition — the latch line reads HIGH, not low as the
claim asserts, because `update` raises the latch at the start and does
not touch it again until after the byte loop. -/
theorem C4_counterexample :
    ((DualChain.update (fun _ => false) [0] [0]).1.take 2
        = [Event.latchHigh, Event.clockLow])
    ∧ latchLineAfter false ((DualChain.update (fun _ => false) [0] [0]).1.take 2)
        ≠ false := by
  exact ⟨by decide, by decide⟩

/-- C4 amended: `DualChain::update` raises the latch first and performs
no latch transition during the per-byte shifting (observing the latch
line mid-sequence shows HIGH); after all bytes the latch is lowered and
exactly one extra latch pulse (low→high→low) is performed as the final
GPIO effects of the call. -/
theorem C4_dual_latch_pulse (inputs : Nat → Bool) (inBuffer outBuffer : List Nat) :
    (DualChain.update inputs inBuffer outBuffer).1
        = Event.latchHigh :: (DualChain.updateBytes inputs 0 outBuffer).1
            ++ [Event.latchLow, Event.latchHigh, Event.latchLow]
    ∧ (∀ e ∈ (DualChain.updateBytes inputs 0 outBuffer).1,
        e ≠ Event.latchLow ∧ e ≠ Event.latchHigh)
    ∧ (∀ j : Nat, 1 ≤ j → j ≤ 1 + (DualChain.updateBytes inputs 0 outBuffer).1.length →
        latchLineAfter false ((DualChain.update inputs inBuffer outBuffer).1.take j)
          = true) := by
  refine ⟨rfl, dual_updateBytes_no_latch inputs outBuffer 0, ?_⟩
  intro j hj1 hj2
  have htake :
      (DualChain.update inputs inBuffer outBuffer).1.take j
        = Event.latchHigh :: (DualChain.updateBytes inputs 0 outBuffer).1.take (j - 1) := by
    show (Event.latchHigh :: (DualChain.updateBytes inputs 0 outBuffer).1
        ++ [Event.latchLow, Event.latchHigh, Event.latchLow]).take j = _
    rw [List.take_append_eq_append_take]
    have h0 : j - (Event.latchHigh :: (DualChain.updateBytes inputs 0 outBuffer).1).length = 0 := by
      simp only [List.length_cons]; omega
    rw [h0, List.take_zero, List.append_nil, List.take_cons (by omega : 0 < j)]
  rw [htake, latchLineAfter, List.foldl_cons]
  show latchLineAfter true ((DualChain.updateBytes inputs 0 outBuffer).1.take (j - 1)) = true
  refine latchLineAfter_of_no_latch _ (fun e he => ?_) true
  exact dual_updateBytes_no_latch inputs outBuffer 0 e (List.take_subset _ _ he)

/-! ## C6: bijectivity and isolation, observed on the serial stream -/

lemma dataEventValue_ite (c : Bool) :
    dataEventValue (if c then Event.dataHigh else Event.dataLow) = some c := by
  cases c <;> rfl

lemma msbFirstBits_length (data : Nat) : (msbFirstBits data).length = 8 := by
  simp [msbFirstBits]

lemma dataLineBits_outByteTrace (data : Nat) :
    dataLineBits (outByteTrace data) = msbFirstBits data := by
  rw [dataLineBits, outByteTrace, List.filterMap_flatMap, msbFirstBits,
    List.map_eq_flatMap]
  refine flatMap_congr_mem _ _ _ fun bit _ => ?_
  rw [bne_and_shift]
  cases data.testBit (7 - bit) <;> rfl

lemma dataLineBits_update (buffer : List Nat) :
    dataLineBits (Output.update buffer).1 = buffer.flatMap msbFirstBits := by
  show List.filterMap dataEventValue
      ((Event.latchLow :: buffer.flatMap outByteTrace) ++ [Event.latchHigh]) = _
  rw [List.filterMap_append]
  have h1 : List.filterMap dataEventValue [Event.latchHigh] = [] := rfl
  have h2 : List.filterMap dataEventValue (Event.latchLow :: buffer.flatMap outByteTrace)
      = List.filterMap dataEventValue (buffer.flatMap outByteTrace) := rfl
  rw [h1, h2, List.append_nil, List.filterMap_flatMap]
  exact flatMap_congr_mem _ _ _ fun data _ => dataLineBits_outByteTrace data

lemma flatMap_msbFirstBits_getD (buffer : List Nat) :
    ∀ i b : Nat, i < buffer.length → b < 8 →
      (buffer.flatMap msbFirstBits).getD (8 * i + (7 - b)) false
        = (buffer.getD i 0).testBit b := by
  induction buffer with
  | nil =>
    intro i b hi _
    simp at hi
  | cons d rest ih =>
    intro i b hi hb
    rw [List.flatMap_cons]
    cases i with
    | zero =>
      have hlt : 8 * 0 + (7 - b) < (msbFirstBits d).length := by
        rw [msbFirstBits_length]; omega
      rw [List.getD_eq_getElem?_getD, List.getElem?_append_left hlt, msbFirstBits,
        List.getElem?_map, List.getElem?_range (by omega), Option.map_some',
        Option.getD_some, List.getD_cons_zero]
      congr 1
      omega
    | succ j =>
      have hge : (msbFirstBits d).length ≤ 8 * (j + 1) + (7 - b) := by
        rw [msbFirstBits_length]; omega
      have hsub : 8 * (j + 1) + (7 - b) - (msbFirstBits d).length = 8 * j + (7 - b) := by
        rw [msbFirstBits_length]; omega
      rw [List.getD_eq_getElem?_getD, List.getElem?_append_right hge, hsub,
        ← List.getD_eq_getElem?_getD, List.getD_cons_succ]
      exact ih j b (by simpa using hi) hb

/-- C6: for every pin in `[0, CHAIN_LENGTH*8)`, `set_output_unchecked
(pin, true)` turns the addressed buffer bit on and leaves every other
buffer bit unchanged; the pin-to-(byte, bit) mapping is injective and
surjective onto the buffer bit positions; and on the serial stream
emitted by `update`, the slot belonging to the pin carries `true` while
the slot of every other pin carries its prior value. -/
theorem C6_bijection_isolation (chainLength pin : Nat) (buffer : List Nat)
    (hlen : buffer.length = chainLength) (hpin : pin < chainLength * 8) :
    ((Output.set_output_unchecked chainLength buffer pin true).getD
        (Output.outIndex chainLength pin) 0).testBit (pin % 8) = true
    ∧ (∀ i < chainLength, ∀ b < 8,
        ¬(i = Output.outIndex chainLength pin ∧ b = pin % 8) →
        ((Output.set_output_unchecked chainLength buffer pin true).getD i 0).testBit b
          = (buffer.getD i 0).testBit b)
    ∧ (∀ q < chainLength * 8, q ≠ pin →
        ¬(Output.outIndex chainLength q = Output.outIndex chainLength pin
            ∧ q % 8 = pin % 8))
    ∧ (∀ i < chainLength, ∀ b < 8,
        ∃ q, q < chainLength * 8 ∧ Output.outIndex chainLength q = i ∧ q % 8 = b)
    ∧ (dataLineBits (Output.update
          (Output.set_output_unchecked chainLength buffer pin true)).1).getD
        (8 * Output.outIndex chainLength pin + (7 - pin % 8)) false = true
    ∧ (∀ q < chainLength * 8, q ≠ pin →
        (dataLineBits (Output.update
              (Output.set_output_unchecked chainLength buffer pin true)).1).getD
            (8 * Output.outIndex chainLength q + (7 - q % 8)) false
          = (dataLineBits (Output.update buffer).1).getD
              (8 * Output.outIndex chainLength q + (7 - q % 8)) false) := by
  have hnewlen : (Output.set_output_unchecked chainLength buffer pin true).length
      = chainLength := by
    rw [set_output_unchecked_length]; exact hlen
  have hidx : Output.outIndex chainLength pin < chainLength := by
    unfold Output.outIndex; omega
  refine ⟨set_output_unchecked_testBit_self chainLength pin buffer true hlen hpin,
    fun i _ b hb hne =>
      set_output_unchecked_testBit_frame chainLength pin i b buffer true hb hne,
    ?_, ?_, ?_, ?_⟩
  · intro q hq hqpin hcontra
    obtain ⟨h1, h2⟩ := hcontra
    unfold Output.outIndex at h1
    omega
  · intro i hi b hb
    refine ⟨8 * (chainLength - i - 1) + b, by omega, ?_, by omega⟩
    unfold Output.outIndex
    omega
  · rw [dataLineBits_update,
      flatMap_msbFirstBits_getD _ (Output.outIndex chainLength pin) (pin % 8)
        (by omega) (by omega)]
    exact set_output_unchecked_testBit_self chainLength pin buffer true hlen hpin
  · intro q hq hqpin
    have hidxq : Output.outIndex chainLength q < chainLength := by
      unfold Output.outIndex; omega
    rw [dataLineBits_update, dataLineBits_update,
      flatMap_msbFirstBits_getD _ (Output.outIndex chainLength q) (q % 8)
        (by omega) (by omega),
      flatMap_msbFirstBits_getD _ (Output.outIndex chainLength q) (q % 8)
        (by omega) (by omega)]
    refine set_output_unchecked_testBit_frame chainLength pin
      (Output.outIndex chainLength q) (q % 8) buffer true (by omega) ?_
    intro hcontra
    obtain ⟨h1, h2⟩ := hcontra
    unfold Output.outIndex at h1
    omega

/-- Witness for C6 at `CHAIN_LENGTH = 2`, `pin = 3`, all-zero buffer:
the addressed bit is on after the write. -/
theorem C6_witness :
    ((Output.set_output_unchecked 2 [0, 0] 3 true).getD
        (Output.outIndex 2 3) 0).testBit (3 % 8) = true :=
  (C6_bijection_isolation 2 3 [0, 0] rfl (by decide)).1

end ShiftIO
